import Mathlib

/-!
Verification of the Imaging repository's classification-list parser
(`ClassificationList.cpp` / `ClassificationList.h`) and confusion-matrix
builder (`CompareList.cpp`, `APRT::PatchExtractor::WriteSort`).

The input stream is modelled as a `List Char`; end of stream is the empty
list.  `uint32_t` counters of the source (`ssn`, `index`, `count`) and the
`int32_t` matrix cells are modelled as `Nat`: the source only ever
increments them, never relies on wraparound, and each is bounded by the
length of the input consumed.
-/

namespace APRT

/-- `PatchClassification` from `ClassificationList.h`:
`{subsampleNumber (1-based), patchIndex (0-based), classification}`. -/
structure PatchClassification where
  subsampleNumber : Nat
  patchIndex : Nat
  classification : String
deriving DecidableEq

/-- The `std::isspace` classic-locale set, used both by `boost::trim_left`
and by the whitespace-skipping `operator>>` behind `std::istream_iterator<char>`. -/
def isSpace (c : Char) : Bool :=
  c = ' ' || c = '\t' || c = '\n' || c = '\x0b' || c = '\x0c' || c = '\r'

/-- `boost::trim_left` on the classic locale. -/
def trimLeft (s : List Char) : List Char :=
  s.dropWhile isSpace

/-- `std::getline(stream, input, delim)`: fails (`none`) exactly when the
stream is already exhausted; otherwise reads up to and including the first
`delim` (the delimiter is consumed and discarded). -/
def getlineD (delim : Char) (s : List Char) : Option (List Char × List Char) :=
  if s = [] then none
  else some (s.takeWhile (fun c => c != delim), (s.dropWhile (fun c => c != delim)).drop 1)

/-- The label pushed for a finished token in `SubsampleClassifications`:
the accumulated characters if non-empty, the sentinel `"NONE"` otherwise. -/
def mkLabel (className : List Char) : String :=
  if className = [] then "NONE" else ⟨className⟩

/-- The scanning loop of `APRT::ClassificationList::SubsampleClassifications`
(lines 73-102 of `ClassificationList.cpp`).  The characters are delivered by
`std::istream_iterator<char>`, i.e. by formatted extraction, which skips
whitespace; the iterator keeps a one-character lookahead, so when the loop
breaks on `'<'` one further non-whitespace character (and the whitespace in
front of it) has already been consumed from the stream and is discarded.
Returns the emitted records and the remainder of the stream. -/
def subsampleScan (ssn : Nat) : Nat → List Char → List Char → List PatchClassification × List Char
  | _, _, [] => ([], [])
  | idx, className, c :: rest =>
    if c = ',' then
      (⟨ssn, idx, mkLabel className⟩ :: (subsampleScan ssn (idx + 1) [] rest).1,
       (subsampleScan ssn (idx + 1) [] rest).2)
    else if c = '<' then
      ([⟨ssn, idx, mkLabel className⟩], (rest.dropWhile isSpace).drop 1)
    else if isSpace c then
      subsampleScan ssn idx className rest
    else
      subsampleScan ssn idx (className ++ [c]) rest

/-- `APRT::ClassificationList::SubsampleClassifications(stream, ssn)`:
scan one subsample body.  Returns the records and the rest of the stream
(the C++ version advances the stream in place). -/
def SubsampleClassifications (stream : List Char) (ssn : Nat) :
    List PatchClassification × List Char :=
  subsampleScan ssn 0 [] stream

/-- The constructor loop of `APRT::ClassificationList` (lines 28-48 of
`ClassificationList.cpp`): repeatedly `getline(stream, input, '>')`; a
left-trimmed segment equal to `"<CLASS"` starts subsample `++ssn`, any other
segment has the rest of its line discarded.  `fuel` bounds the number of
iterations; every iteration strictly shortens the stream, so
`stream.length + 1` units of fuel reproduce the C++ loop exactly. -/
def classLoop : Nat → Nat → List Char → List (List PatchClassification)
  | 0, _, _ => []
  | fuel + 1, ssn, s =>
    match getlineD '>' s with
    | none => []
    | some (input, rest) =>
      if trimLeft input = "<CLASS".data then
        (SubsampleClassifications rest (ssn + 1)).1
          :: classLoop fuel (ssn + 1) (SubsampleClassifications rest (ssn + 1)).2
      else
        match getlineD '\n' rest with
        | none => []
        | some (_, rest2) => classLoop fuel ssn rest2

/-- `APRT::ClassificationList::ClassificationList(stream)`: the list of
subsamples, in stream order. -/
def ClassificationList (stream : List Char) : List (List PatchClassification) :=
  classLoop (stream.length + 1) 0 stream

/-- The pcl-side label chain of `APRT::PatchExtractor::WriteSort`
(lines 199-225 of `CompareList.cpp`): `pclindex` starts at 25 and the
if/else chain assigns on exact string equality. -/
def labelIndexPcl (s : String) : Nat :=
  if s = "RBC" then 0
  else if s = "DRBC" then 1
  else if s = "RBCC" then 2
  else if s = "WBC" then 3
  else if s = "WBCC" then 4
  else if s = "BACT" then 5
  else if s = "SQEP" then 6
  else if s = "NSE" then 7
  else if s = "TREP" then 8
  else if s = "REEP" then 9
  else if s = "CAOX" then 10
  else if s = "URIC" then 11
  else if s = "TPO4" then 12
  else if s = "CAPH" then 13
  else if s = "CYST" then 14
  else if s = "LEUC" then 15
  else if s = "AMOR" then 16
  else if s = "CELL" then 17
  else if s = "GRAN" then 18
  else if s = "MUCS" then 19
  else if s = "SPRM" then 20
  else if s = "BYST" then 21
  else if s = "HYST" then 22
  else if s = "TRCH" then 23
  else if s = "BUBB" then 24
  else if s = "NONE" then 25
  else 25

/-- The acl-side label chain of `APRT::PatchExtractor::WriteSort`
(lines 227-252 of `CompareList.cpp`), textually duplicated in the source. -/
def labelIndexAcl (s : String) : Nat :=
  if s = "RBC" then 0
  else if s = "DRBC" then 1
  else if s = "RBCC" then 2
  else if s = "WBC" then 3
  else if s = "WBCC" then 4
  else if s = "BACT" then 5
  else if s = "SQEP" then 6
  else if s = "NSE" then 7
  else if s = "TREP" then 8
  else if s = "REEP" then 9
  else if s = "CAOX" then 10
  else if s = "URIC" then 11
  else if s = "TPO4" then 12
  else if s = "CAPH" then 13
  else if s = "CYST" then 14
  else if s = "LEUC" then 15
  else if s = "AMOR" then 16
  else if s = "CELL" then 17
  else if s = "GRAN" then 18
  else if s = "MUCS" then 19
  else if s = "SPRM" then 20
  else if s = "BYST" then 21
  else if s = "HYST" then 22
  else if s = "TRCH" then 23
  else if s = "BUBB" then 24
  else if s = "NONE" then 25
  else 25

/-- The 25 fixed vocabulary entries, in chain order (indices 0..24);
everything else, including `"NONE"`, lands on index 25. -/
def knownLabels : List String :=
  ["RBC", "DRBC", "RBCC", "WBC", "WBCC", "BACT", "SQEP", "NSE", "TREP", "REEP",
   "CAOX", "URIC", "TPO4", "CAPH", "CYST", "LEUC", "AMOR", "CELL", "GRAN",
   "MUCS", "SPRM", "BYST", "HYST", "TRCH", "BUBB"]

/-- `++conmatrix(pclindex, aclindex)`: increment one cell of the matrix,
modelled as a function from (row, column) to count. -/
def bump (m : Nat → Nat → Nat) (i j : Nat) : Nat → Nat → Nat :=
  fun a b => if a = i ∧ b = j then m a b + 1 else m a b

/-- The accumulation loop of `WriteSort` (lines 192-255 of
`CompareList.cpp`): while `count` is below the size of both selected
subsamples, map the two labels at position `count` and increment the cell
`(pclindex, aclindex)`. -/
def matLoop : List PatchClassification → List PatchClassification →
    (Nat → Nat → Nat) → Nat → Nat → Nat
  | p :: ps, a :: as, m =>
      matLoop ps as (bump m (labelIndexPcl p.classification) (labelIndexAcl a.classification))
  | _, _, m => m

/-- Selection of `list.Classifications()[subsamplenumber - 1]` in
`WriteSort`.  The C++ indexing is unchecked: a selector of 0 or one beyond
the number of subsamples reads out of bounds (undefined behaviour).  The
model renders that unchecked out-of-range access as the empty subsample. -/
def subsampleOf (l : List (List PatchClassification)) (ss : Nat) :
    List PatchClassification :=
  if 1 ≤ ss then l.getD (ss - 1) [] else []

/-- The confusion matrix accumulated by `WriteSort` for subsample `ss`
(1-based) of the two parsed lists, starting from the all-zero 26x26 matrix. -/
def conMatrix (pcl acl : List (List PatchClassification)) (ss : Nat) :
    Nat → Nat → Nat :=
  matLoop (subsampleOf pcl ss) (subsampleOf acl ss) (fun _ _ => 0)

/-- Decimal digits of `n`, most significant first: the characters produced
by `fprintf(fp, "%d", n)` for a non-negative value.  The fuel argument
dominates the number of digits. -/
def natDecAux : Nat → Nat → List Char
  | 0, _ => []
  | fuel + 1, n => if n < 10 then [Nat.digitChar n] else natDecAux fuel (n / 10) ++ [Nat.digitChar (n % 10)]

/-- The text `fprintf(fp, "%d", n)` writes. -/
def natDec (n : Nat) : List Char :=
  natDecAux (n + 1) n

/-- One `fprintf(fp, "%d\t", conmatrix(i, j))` call: the digits then a tab. -/
def entryChars (v : Nat) : List Char :=
  natDec v ++ ['\t']

/-- The inner loop of the serialization in `WriteSort` (lines 265-272 of
`CompareList.cpp`): one output row for matrix row `i` - 26 tab-terminated
entries in column order, then a newline. -/
def rowChars (m : Nat → Nat → Nat) (i : Nat) : List Char :=
  ((List.range 26).map (fun j => entryChars (m i j))).flatten ++ ['\n']

/-- The full text one `WriteSort` call writes: 26 rows in row order. -/
def matrixChars (m : Nat → Nat → Nat) : List Char :=
  ((List.range 26).map (rowChars m)).flatten

/-- The effect of one serialization on the output file, which `WriteSort`
opens with `fopen(..., "a+")`: the matrix text is appended to the existing
contents. -/
def appendMatrix (file : List Char) (m : Nat → Nat → Nat) : List Char :=
  file ++ matrixChars m

/-- Number of delimiter characters (`','` up to and including the first
`'<'`) the body scanner consumes from a stream. -/
def countDelims : List Char → Nat
  | [] => 0
  | c :: rest =>
    if c = '<' then 1
    else if c = ',' then countDelims rest + 1
    else countDelims rest

/-- The raw character segments between consecutive delimiters of a
subsample body, keeping every character (whitespace included); characters
after the terminating `'<'`, or trailing characters never followed by a
delimiter, belong to no segment. -/
def rawSegments : List Char → List (List Char)
  | [] => []
  | c :: rest =>
    if c = ',' then [] :: rawSegments rest
    else if c = '<' then [[]]
    else
      match rawSegments rest with
      | [] => []
      | seg :: more => (c :: seg) :: more

/-! ### Helper lemmas about the body scanner -/

lemma scanLengthDelims : ∀ (s : List Char) (ssn idx : Nat) (cn : List Char),
    (subsampleScan ssn idx cn s).1.length = countDelims s := by
  intro s
  induction s with
  | nil => intro ssn idx cn; rfl
  | cons c rest ih =>
    intro ssn idx cn
    by_cases hc : c = ','
    · subst hc
      simp [subsampleScan, countDelims, ih]
    · by_cases hl : c = '<'
      · subst hl
        simp [subsampleScan, countDelims]
      · by_cases hw : isSpace c
        · simp [subsampleScan, countDelims, hc, hl, hw, ih]
        · simp [subsampleScan, countDelims, hc, hl, hw, ih]

lemma scanSubsampleNumber : ∀ (s : List Char) (ssn idx : Nat) (cn : List Char)
    (r : PatchClassification), r ∈ (subsampleScan ssn idx cn s).1 →
    r.subsampleNumber = ssn := by
  intro s
  induction s with
  | nil => intro ssn idx cn r hr; simp [subsampleScan] at hr
  | cons c rest ih =>
    intro ssn idx cn r hr
    by_cases hc : c = ','
    · subst hc
      simp only [subsampleScan, if_pos] at hr
      rcases List.mem_cons.mp hr with h | h
      · subst h; rfl
      · exact ih _ _ _ _ h
    · by_cases hl : c = '<'
      · subst hl
        simp [subsampleScan, hc] at hr
        subst hr; rfl
      · by_cases hw : isSpace c
        · simp only [subsampleScan, hc, hl, hw, if_neg, if_pos, if_false, if_true] at hr
          exact ih _ _ _ _ hr
        · simp only [subsampleScan, hc, hl, hw, if_neg, if_false] at hr
          exact ih _ _ _ _ hr

lemma scanPatchIndex : ∀ (s : List Char) (ssn idx : Nat) (cn : List Char),
    (subsampleScan ssn idx cn s).1.map (fun r => r.patchIndex)
      = List.range' idx (subsampleScan ssn idx cn s).1.length := by
  intro s
  induction s with
  | nil => intro ssn idx cn; rfl
  | cons c rest ih =>
    intro ssn idx cn
    by_cases hc : c = ','
    · subst hc
      simp only [subsampleScan, if_pos, List.map_cons, List.length_cons]
      rw [List.range'_succ, ih]
    · by_cases hl : c = '<'
      · subst hl
        simp [subsampleScan, hc, List.range'_succ]
      · by_cases hw : isSpace c
        · simp only [subsampleScan, hc, hl, hw, if_neg, if_false, if_true, if_pos]
          exact ih _ _ _
        · simp only [subsampleScan, hc, hl, hw, if_neg, if_false]
          exact ih _ _ _

lemma scanNoDelims : ∀ (s : List Char) (ssn idx : Nat) (cn : List Char),
    (∀ c ∈ s, c ≠ ',' ∧ c ≠ '<') → (subsampleScan ssn idx cn s).1 = [] := by
  intro s
  induction s with
  | nil => intro ssn idx cn _; rfl
  | cons c rest ih =>
    intro ssn idx cn h
    obtain ⟨hc, hl⟩ := h c (by simp)
    have hrest : ∀ c ∈ rest, c ≠ ',' ∧ c ≠ '<' := fun x hx => h x (by simp [hx])
    by_cases hw : isSpace c
    · simp only [subsampleScan, hc, hl, hw, if_neg, if_false, if_true, if_pos]
      exact ih _ _ _ hrest
    · simp only [subsampleScan, hc, hl, hw, if_neg, if_false]
      exact ih _ _ _ hrest

lemma scanClassifications : ∀ (s : List Char) (ssn idx : Nat) (cn : List Char),
    (subsampleScan ssn idx cn s).1.map (fun r => r.classification)
      = match rawSegments s with
        | [] => []
        | seg :: more =>
            mkLabel (cn ++ seg.filter (fun c => !isSpace c))
              :: more.map (fun seg => mkLabel (seg.filter (fun c => !isSpace c))) := by
  intro s
  induction s with
  | nil => intro ssn idx cn; rfl
  | cons c rest ih =>
    intro ssn idx cn
    by_cases hc : c = ','
    · subst hc
      simp only [subsampleScan, if_pos, List.map_cons, rawSegments]
      rw [ih]
      cases hseg : rawSegments rest with
      | nil => simp
      | cons seg more => simp
    · by_cases hl : c = '<'
      · subst hl
        simp only [subsampleScan, hc, if_neg, if_false, if_pos, rawSegments, List.map_cons,
          List.map_nil, List.filter_nil, List.append_nil]
      · by_cases hw : isSpace c
        · simp only [subsampleScan, hc, hl, hw, if_neg, if_false, if_true, if_pos, rawSegments]
          rw [ih]
          cases hseg : rawSegments rest with
          | nil => simp
          | cons seg more => simp [List.filter_cons, hw]
        · simp only [subsampleScan, rawSegments]
          rw [if_neg hc, if_neg hl, if_neg hw]
          rw [ih]
          cases hseg : rawSegments rest with
          | nil => rw [if_neg hc, if_neg hl]
          | cons seg more =>
              rw [if_neg hc, if_neg hl]
              simp [List.filter_cons, hw, List.append_assoc]

/-! ### Helper lemmas about the matrix accumulation loop -/

lemma matLoopApply : ∀ (A B : List PatchClassification) (m : Nat → Nat → Nat) (i j : Nat),
    matLoop A B m i j
      = m i j + (A.zip B).countP
          (fun q => (labelIndexPcl q.1.classification == i)
            && (labelIndexAcl q.2.classification == j)) := by
  intro A
  induction A with
  | nil => intro B m i j; simp [matLoop]
  | cons p ps ih =>
    intro B m i j
    cases B with
    | nil => simp [matLoop]
    | cons a as =>
      have hstep : matLoop (p :: ps) (a :: as) m
          = matLoop ps as
              (bump m (labelIndexPcl p.classification) (labelIndexAcl a.classification)) := rfl
      rw [hstep, ih]
      simp only [List.zip_cons_cons, List.countP_cons, bump]
      by_cases h1 : labelIndexPcl p.classification = i
        <;> by_cases h2 : labelIndexAcl a.classification = j
        <;> simp [h1, h2] <;> omega

/-! ### Helper lemmas about the serialized matrix text -/

lemma digitCharIsDigit : ∀ k : Nat, k < 10 → (Nat.digitChar k).isDigit = true := by
  intro k h
  interval_cases k <;> rfl

lemma natDecAuxIsDigit : ∀ (fuel n : Nat), ∀ c ∈ natDecAux fuel n, c.isDigit = true := by
  intro fuel
  induction fuel with
  | zero => intro n c hc; simp [natDecAux] at hc
  | succ f ih =>
    intro n c hc
    simp only [natDecAux] at hc
    by_cases h : n < 10
    · rw [if_pos h] at hc
      simp at hc
      subst hc
      exact digitCharIsDigit n h
    · rw [if_neg h] at hc
      rcases List.mem_append.mp hc with hc | hc
      · exact ih _ _ hc
      · simp at hc
        subst hc
        exact digitCharIsDigit _ (Nat.mod_lt _ (by norm_num))

lemma countNatDec (c : Char) (h : c.isDigit = false) (n : Nat) : (natDec n).count c = 0 := by
  rw [List.count_eq_zero]
  intro hmem
  have hd := natDecAuxIsDigit (n + 1) n c hmem
  rw [hd] at h
  cases h

lemma countFlattenConst (c : Char) : ∀ (L : List (List Char)) (k : Nat),
    (∀ l ∈ L, l.count c = k) → L.flatten.count c = k * L.length := by
  intro L
  induction L with
  | nil => intro k _; simp
  | cons l L ih =>
    intro k h
    simp only [List.flatten_cons, List.count_append, List.length_cons]
    rw [h l (by simp), ih k (fun x hx => h x (by simp [hx]))]
    ring

lemma countEntryTab (v : Nat) : (entryChars v).count '\t' = 1 := by
  simp [entryChars, List.count_append, countNatDec '\t' (by rfl) v]

lemma countEntryNewline (v : Nat) : (entryChars v).count '\n' = 0 := by
  simp [entryChars, List.count_append, countNatDec '\n' (by rfl) v]

lemma countRowTab (m : Nat → Nat → Nat) (i : Nat) : (rowChars m i).count '\t' = 26 := by
  simp only [rowChars, List.count_append]
  rw [countFlattenConst '\t' _ 1]
  · simp
  · intro l hl
    rcases List.mem_map.mp hl with ⟨j, _, rfl⟩
    exact countEntryTab _

lemma countRowNewline (m : Nat → Nat → Nat) (i : Nat) : (rowChars m i).count '\n' = 1 := by
  simp only [rowChars, List.count_append]
  rw [countFlattenConst '\n' _ 0]
  · simp
  · intro l hl
    rcases List.mem_map.mp hl with ⟨j, _, rfl⟩
    exact countEntryNewline _

lemma countMatrixNewline (m : Nat → Nat → Nat) : (matrixChars m).count '\n' = 26 := by
  simp only [matrixChars]
  rw [countFlattenConst '\n' _ 1]
  · simp
  · intro l hl
    rcases List.mem_map.mp hl with ⟨i, _, rfl⟩
    exact countRowNewline _ _

/-! ### Helper lemmas about the constructor loop -/

lemma classLoopPatchIndex : ∀ (fuel ssn : Nat) (s : List Char)
    (sub : List PatchClassification), sub ∈ classLoop fuel ssn s →
    sub.map (fun r => r.patchIndex) = List.range sub.length := by
  intro fuel
  induction fuel with
  | zero => intro ssn s sub h; simp [classLoop] at h
  | succ f ih =>
    intro ssn s sub h
    simp only [classLoop] at h
    split at h
    · simp at h
    · split at h
      · rcases List.mem_cons.mp h with h | h
        · subst h
          rw [List.range_eq_range']
          exact scanPatchIndex _ _ _ _
        · exact ih _ _ _ h
      · split at h
        · simp at h
        · exact ih _ _ _ h

lemma classLoopSubsampleNumber : ∀ (fuel ssn : Nat) (s : List Char) (i : Nat)
    (r : PatchClassification), r ∈ (classLoop fuel ssn s).getD i [] →
    r.subsampleNumber = ssn + i + 1 := by
  intro fuel
  induction fuel with
  | zero => intro ssn s i r h; simp [classLoop] at h
  | succ f ih =>
    intro ssn s i r h
    simp only [classLoop] at h
    split at h
    · simp at h
    · split at h
      · cases i with
        | zero =>
          simp only [List.getD_cons_zero] at h
          rw [scanSubsampleNumber _ _ _ _ _ h]
        | succ k =>
          simp only [List.getD_cons_succ] at h
          have := ih _ _ _ _ h
          omega
      · split at h
        · simp at h
        · exact ih _ _ _ _ h

/-! ### Claim theorems -/

/-- C1, counterexample: a stream holding two well-formed `<CLASS>` blocks
(each opening tag terminated by `>`) for which parsing yields only one
subsample: the body scanner consumes the terminating `<` of the first body
together with the following character (the iterator lookahead), so the
second `<CLASS` tag is never recognized. -/
theorem c1_counterexample :
    "<CLASS>A<CLASS>B<".data
        = "<CLASS>".data ++ "A".data ++ "<CLASS>".data ++ "B<".data
      ∧ (ClassificationList "<CLASS>A<CLASS>B<".data).length = 1 := by
  exact ⟨by decide, by decide⟩

/-- C1, amended: parsing yields one subsample per recognized `<CLASS` tag,
and every record of the i-th subsample (0-based position i in the result)
carries subsampleNumber i + 1, in stream appearance order; however a
`<CLASS>` block whose opening `<` directly terminates the previous
subsample body is not recognized, so k well-formed blocks can produce
fewer than k subsamples. -/
theorem c1_subsample_numbering (stream : List Char) (i : Nat)
    (_h : i < (ClassificationList stream).length) (r : PatchClassification)
    (hr : r ∈ (ClassificationList stream).getD i []) :
    r.subsampleNumber = i + 1 := by
  have h0 := classLoopSubsampleNumber (stream.length + 1) 0 stream i r hr
  omega

/-- C1 witness: the single block of `"<CLASS>A<"` is subsample number 1. -/
theorem c1_subsample_numbering_witness :
    0 < (ClassificationList "<CLASS>A<".data).length
      ∧ (⟨1, 0, "A"⟩ : PatchClassification) ∈ (ClassificationList "<CLASS>A<".data).getD 0 []
      ∧ (⟨1, 0, "A"⟩ : PatchClassification).subsampleNumber = 0 + 1 :=
  ⟨by decide, by decide,
   c1_subsample_numbering "<CLASS>A<".data 0 (by decide) ⟨1, 0, "A"⟩ (by decide)⟩

/-- C2 (confirmed): with the selected subsample in range for both lists,
cell (i, j) of the accumulated confusion matrix counts exactly the
index-aligned positions k below the length of the shorter subsample whose
pcl label maps to i and whose acl label maps to j; positions at or beyond
the shorter length (the zip truncates to it) contribute to no cell. -/
theorem c2_matrix_counts (pcl acl : List (List PatchClassification)) (ss : Nat)
    (h1 : 1 ≤ ss) (h2 : ss - 1 < pcl.length) (h3 : ss - 1 < acl.length) (i j : Nat) :
    conMatrix pcl acl ss i j
      = ((pcl.get ⟨ss - 1, h2⟩).zip (acl.get ⟨ss - 1, h3⟩)).countP
          (fun q => (labelIndexPcl q.1.classification == i)
            && (labelIndexAcl q.2.classification == j)) := by
  unfold conMatrix subsampleOf
  simp only [if_pos h1]
  rw [List.getD_eq_getElem pcl [] h2, List.getD_eq_getElem acl [] h3, matLoopApply]
  simp [List.get_eq_getElem]

/-- C2 witness: a concrete in-range comparison, one RBC/WBC pair. -/
theorem c2_matrix_counts_witness :
    conMatrix [[⟨1, 0, "RBC"⟩]] [[⟨1, 0, "WBC"⟩]] 1 0 3 = 1 :=
  (c2_matrix_counts [[⟨1, 0, "RBC"⟩]] [[⟨1, 0, "WBC"⟩]] 1
    (by decide) (by decide) (by decide) 0 3).trans (by decide)

/-- C3, counterexample: a subsample body immediately terminated by `<`
yields one record (with the sentinel label), not zero: the terminating `<`
is itself a consumed delimiter and the loop emits before breaking. -/
theorem c3_counterexample :
    (SubsampleClassifications "<".data 1).1.length = 1
      ∧ SubsampleClassifications "<".data 1 = ([⟨1, 0, "NONE"⟩], []) := by
  exact ⟨by decide, by decide⟩

/-- C3, amended: the scanning loop emits exactly one record per delimiter
character (`,` or `<`) consumed; in particular a body immediately
terminated by `<` consumes that one delimiter and yields exactly one
record. -/
theorem c3_records_per_delimiter (ssn idx : Nat) (cn s : List Char) :
    (subsampleScan ssn idx cn s).1.length = countDelims s :=
  scanLengthDelims s ssn idx cn

/-- C4, counterexample: whitespace between delimiters is skipped by the
formatted extraction behind `istream_iterator<char>`, so the label emitted
for the body segment `A B` is `"AB"`, not the character-for-character
stream segment `"A B"`. -/
theorem c4_counterexample :
    (SubsampleClassifications "A B,<".data 1).1.map (fun r => r.classification)
        = ["AB", "NONE"]
      ∧ "A B,<".data.takeWhile (fun c => c != ',') = "A B".data
      ∧ ("AB" : String) ≠ "A B" := by
  exact ⟨by decide, by decide, by decide⟩

/-- C4, amended: every non-whitespace character other than `,` and `<`
scanned inside a subsample body is appended to the token buffer, while
whitespace characters are skipped; consequently every emitted label is
built from exactly the non-whitespace characters appearing between the two
enclosing delimiters, in order (the sentinel `"NONE"` when there are
none). -/
theorem c4_labels_from_segments (ssn : Nat) (s : List Char) :
    (SubsampleClassifications s ssn).1.map (fun r => r.classification)
      = (rawSegments s).map (fun seg => mkLabel (seg.filter (fun c => !isSpace c))) := by
  have h := scanClassifications s ssn 0 []
  rw [SubsampleClassifications, h]
  cases hseg : rawSegments s with
  | nil => simp
  | cons seg more => simp

/-- C5 (confirmed): the body `A,,B<` yields exactly the three records
`"A"`, `"NONE"`, `"B"` with patch indices 0, 1, 2, and the terminating
lookahead leaves an exhausted stream. -/
theorem c5_body_records :
    SubsampleClassifications "A,,B<".data 1
      = ([⟨1, 0, "A"⟩, ⟨1, 1, "NONE"⟩, ⟨1, 2, "B"⟩], []) := by
  decide

lemma labelIndexPclUnknown (s : String) (hs : s ∉ knownLabels) :
    labelIndexPcl s = 25 := by
  have hne : ∀ t : String, t ∈ knownLabels → s ≠ t :=
    fun t ht e => hs (by rw [e]; exact ht)
  unfold labelIndexPcl
  rw [if_neg (hne "RBC" (by decide)), if_neg (hne "DRBC" (by decide)),
    if_neg (hne "RBCC" (by decide)), if_neg (hne "WBC" (by decide)),
    if_neg (hne "WBCC" (by decide)), if_neg (hne "BACT" (by decide)),
    if_neg (hne "SQEP" (by decide)), if_neg (hne "NSE" (by decide)),
    if_neg (hne "TREP" (by decide)), if_neg (hne "REEP" (by decide)),
    if_neg (hne "CAOX" (by decide)), if_neg (hne "URIC" (by decide)),
    if_neg (hne "TPO4" (by decide)), if_neg (hne "CAPH" (by decide)),
    if_neg (hne "CYST" (by decide)), if_neg (hne "LEUC" (by decide)),
    if_neg (hne "AMOR" (by decide)), if_neg (hne "CELL" (by decide)),
    if_neg (hne "GRAN" (by decide)), if_neg (hne "MUCS" (by decide)),
    if_neg (hne "SPRM" (by decide)), if_neg (hne "BYST" (by decide)),
    if_neg (hne "HYST" (by decide)), if_neg (hne "TRCH" (by decide)),
    if_neg (hne "BUBB" (by decide))]
  split <;> rfl

set_option maxHeartbeats 1000000 in
/-- C6 (confirmed): the label-to-index mapping is a pure function (hence
total and deterministic), the duplicated pcl and acl chains agree
pointwise, every result lies in [0, 25], matching is exact-string
(case-sensitive, untrimmed), and every string outside the fixed 25-entry
vocabulary - the sentinel `"NONE"` included - maps to the last index 25. -/
theorem c6_label_mapping :
    (∀ s, labelIndexPcl s = labelIndexAcl s)
      ∧ (∀ s, labelIndexPcl s ≤ 25)
      ∧ (∀ s, s ∉ knownLabels → labelIndexPcl s = 25)
      ∧ labelIndexPcl "NONE" = 25
      ∧ labelIndexPcl "rbc" = 25
      ∧ labelIndexPcl " RBC" = 25
      ∧ labelIndexPcl "RBC" = 0 := by
  refine ⟨fun s => rfl, fun s => ?_, labelIndexPclUnknown, by decide, by decide, by decide, by decide⟩
  by_cases hmem : s ∈ knownLabels
  · fin_cases hmem <;> decide
  · rw [labelIndexPclUnknown s hmem]

/-- C6 witness: a string outside the vocabulary maps to the catch-all 25. -/
theorem c6_label_mapping_witness :
    ("XYZ" : String) ∉ knownLabels ∧ labelIndexPcl "XYZ" = 25 :=
  ⟨by decide, c6_label_mapping.2.2.1 "XYZ" (by decide)⟩

/-- C7 (code bug): `WriteSort` performs no range validation on the
subsample selector; the unchecked `Classifications()[subsamplenumber-1]`
access is undefined behaviour out of range, and under the model's
rendering of that access (empty subsample) an out-of-range selector
silently produces exactly the all-zero matrix the spec says must never be
produced - there is no explicit error result anywhere in the builder. -/
theorem c7_out_of_range_silent_zero :
    ∀ i j : Nat,
      conMatrix (ClassificationList "<CLASS>RBC<".data)
        (ClassificationList "<CLASS>WBC<".data) 2 i j = 0 := by
  intro i j
  rfl

/-- C8 (confirmed): the scanner is total (it cannot crash at end of
stream), and a stream suffix holding no delimiter at all - in particular a
dangling partially-accumulated token at end of stream - emits no record. -/
theorem c8_dangling_token_discarded (ssn idx : Nat) (cn s : List Char)
    (h : ∀ c ∈ s, c ≠ ',' ∧ c ≠ '<') :
    (subsampleScan ssn idx cn s).1 = [] :=
  scanNoDelims s ssn idx cn h

/-- C8 witness: scanning `"ABC"` with an already-accumulated partial token
`"XY"` reaches end of stream and emits nothing. -/
theorem c8_dangling_token_discarded_witness :
    (∀ c ∈ "ABC".data, c ≠ ',' ∧ c ≠ '<')
      ∧ (subsampleScan 1 0 "XY".data "ABC".data).1 = [] :=
  ⟨by decide, c8_dangling_token_discarded 1 0 "XY".data "ABC".data (by decide)⟩

/-- C9 (confirmed): in every subsample of every parsed stream the
patchIndex values are exactly 0, 1, ..., n-1 in order, with no gaps. -/
theorem c9_patch_indices_gapless (stream : List Char) (sub : List PatchClassification)
    (hs : sub ∈ ClassificationList stream) :
    sub.map (fun r => r.patchIndex) = List.range sub.length :=
  classLoopPatchIndex (stream.length + 1) 0 stream sub hs

/-- C9 witness: the subsample parsed from `"<CLASS>A,,B<"` has patch
indices 0, 1, 2. -/
theorem c9_patch_indices_gapless_witness :
    ([⟨1, 0, "A"⟩, ⟨1, 1, "NONE"⟩, ⟨1, 2, "B"⟩] : List PatchClassification)
        ∈ ClassificationList "<CLASS>A,,B<".data
      ∧ ([⟨1, 0, "A"⟩, ⟨1, 1, "NONE"⟩, ⟨1, 2, "B"⟩] : List PatchClassification).map
          (fun r => r.patchIndex) = List.range 3 :=
  ⟨by decide,
   c9_patch_indices_gapless "<CLASS>A,,B<".data
     [⟨1, 0, "A"⟩, ⟨1, 1, "NONE"⟩, ⟨1, 2, "B"⟩] (by decide)⟩

/-- C10 (confirmed): one serialization appends exactly 26 rows (one `\n`
per row, 26 rows in the matrix text), each row carrying 26 tab-terminated
integer entries in column order; appending preserves the existing sink
contents unchanged, so two sequential runs leave both matrices present in
call order. -/
theorem c10_append_serialization :
    (∀ (file : List Char) (m₁ m₂ : Nat → Nat → Nat),
        appendMatrix (appendMatrix file m₁) m₂
          = file ++ (matrixChars m₁ ++ matrixChars m₂))
      ∧ (∀ (file : List Char) (m : Nat → Nat → Nat),
          (appendMatrix file m).take file.length = file)
      ∧ (∀ m : Nat → Nat → Nat, (matrixChars m).count '\n' = 26)
      ∧ (∀ (m : Nat → Nat → Nat) (i : Nat), (rowChars m i).count '\n' = 1)
      ∧ (∀ (m : Nat → Nat → Nat) (i : Nat), (rowChars m i).count '\t' = 26) := by
  refine ⟨?_, ?_, countMatrixNewline, countRowNewline, countRowTab⟩
  · intro file m₁ m₂
    simp [appendMatrix, List.append_assoc]
  · intro file m
    exact List.take_left file (matrixChars m)

end APRT
